import Mathlib

/-!
Verification of the authorization engine of the pos-shop-system backend.

The repository contains three authorization middlewares and a tenant-context
resolver; this file gives a shallow embedding of each and proves properties
about them:

* `staticRbac` embeds the request-local role/permission check of
  src/middleware/rbac.middleware.js (no database access);
* `pmRbac` embeds the flat, database-backed check of
  src/backend/middleware/permission.middleware.js, together with `auditLogRecord`
  for the audit middleware of the same file;
* `srbac` embeds the hierarchical, multi-tenant check of the rbac middleware in
  src/backend/middleware/sales.validation.js, with the role-closure walk
  `collectRoleAndParents` and the tenant-scoped permission aggregation;
* `tenantMiddleware` embeds the tenant resolver of the tenant middleware in
  src/backend/middleware/logger.middleware.js.

Database reads are modelled as lists of rows carried in a record, together with
boolean failure flags: a flag set to `true` means the corresponding query
throws, which the embedding propagates as `Except.error` exactly where the
JavaScript exception would propagate to the surrounding catch.

Two places where the middleware code and the persisted schema disagree are
modelled from the schema side (final migration, seed-rbac.js and the data
model document agree on it):

* Role rows carry `parentRoleId`, while the closure walk of
  sales.validation.js reads `role.parentId` — a property no row has — so the
  parent-following branch of the walk is dead and a closure never contains
  ancestors (`roleParentIdRead` below);
* RolePermission rows carry `roleId`/`permissionId`/`tenantId` Ints — the
  `role` text column was dropped — and `UserRole.tenantId` is an Int, so the
  queries of permission.middleware.js are rejected by the Prisma client and
  that middleware's non-shortcut path always ends in its catch, forwarding
  the error.

The recursive role-parent walk is embedded with an explicit fuel parameter;
because its recursive branch is dead, every result below is independent of
the fuel, so the parameter does not constrain the modelled behavior.
-/

/-- JavaScript `a || b` on possibly-absent values (`none` models
`undefined`/`null`). Numeric ids in this development start at 1, so the JS
falsiness of `0` never arises for them. -/
def jsOr {α : Type} (a b : Option α) : Option α :=
  match a with
  | some x => some x
  | none => b

/-- JavaScript truthiness of a possibly-absent string: `undefined`, `null`
and the empty string are falsy. -/
def jsTruthy (v : Option String) : Bool :=
  match v with
  | some s => !(s == "")
  | none => false

/-- Worker for `jsDedup`: keeps the first occurrence of each element,
skipping anything already in `seen`. -/
def jsDedupAux {α : Type} [DecidableEq α] (seen : List α) : List α → List α
  | [] => []
  | x :: xs =>
    if x ∈ seen then jsDedupAux seen xs
    else x :: jsDedupAux (x :: seen) xs

/-- JavaScript `Array.from(new Set(l))`: removes duplicates, keeping the
first occurrence of each element in insertion order. -/
def jsDedup {α : Type} [DecidableEq α] (l : List α) : List α :=
  jsDedupAux [] l

/-- The library's String.toLower is opaque to kernel reduction, so case
mapping is done on the character list: `s.toLowerCase()`. -/
def jsToLower (s : String) : String :=
  String.mk (s.data.map Char.toLower)

/-- `s.toUpperCase()` on the character list. -/
def jsToUpper (s : String) : String :=
  String.mk (s.data.map Char.toUpper)

/-- `s.trim()`: strip leading and trailing whitespace, on the character
list. -/
def jsTrim (s : String) : String :=
  String.mk
    (((s.data.dropWhile Char.isWhitespace).reverse.dropWhile Char.isWhitespace).reverse)

/-- Split a character list at every occurrence of `c` (the semantics of
`s.split(c)` for a one-character separator: the empty string yields one
empty piece, and separators at the ends yield empty pieces). -/
def splitChar (c : Char) : List Char → List (List Char)
  | [] => [[]]
  | x :: xs =>
    if x == c then [] :: splitChar c xs
    else
      match splitChar c xs with
      | [] => [[x]]
      | y :: ys => (x :: y) :: ys

/-- `hostname.split('.')`: the DNS labels of the host. -/
def jsSplitDot (s : String) : List String :=
  (splitChar '.' s.data).map String.mk

/-- `parts[0]` of a split result (a split always has at least one piece; the
default is never used). -/
def jsHead (l : List String) : String :=
  match l with
  | [] => ""
  | x :: _ => x

/-- Whether `pat` is an initial segment of the text. -/
def leadsWith : List Char → List Char → Bool
  | [], _ => true
  | _ :: _, [] => false
  | p :: ps, x :: xs => p == x && leadsWith ps xs

/-- Whether `pat` occurs somewhere in the text. -/
def occursIn : List Char → List Char → Bool
  | pat, [] => pat.isEmpty
  | pat, x :: xs => leadsWith pat (x :: xs) || occursIn pat xs

/-- JavaScript `s.includes(pat)`. -/
def strIncludes (s pat : String) : Bool :=
  occursIn pat.data s.data

theorem mem_jsDedupAux {α : Type} [DecidableEq α] (x : α) :
    ∀ (l seen : List α), x ∈ jsDedupAux seen l ↔ x ∈ l ∧ x ∉ seen := by
  intro l
  induction l with
  | nil => intro seen; simp [jsDedupAux]
  | cons y ys ih =>
    intro seen
    by_cases hy : y ∈ seen
    · simp only [jsDedupAux, if_pos hy, ih, List.mem_cons]
      constructor
      · rintro ⟨hmem, hns⟩; exact ⟨Or.inr hmem, hns⟩
      · rintro ⟨rfl | hmem, hns⟩
        · exact absurd hy hns
        · exact ⟨hmem, hns⟩
    · simp only [jsDedupAux, if_neg hy, List.mem_cons, ih]
      constructor
      · rintro (rfl | ⟨hmem, hns⟩)
        · exact ⟨Or.inl rfl, hy⟩
        · exact ⟨Or.inr hmem, fun hx => hns (Or.inr hx)⟩
      · rintro ⟨rfl | hmem, hns⟩
        · exact Or.inl rfl
        · by_cases hxy : x = y
          · exact Or.inl hxy
          · exact Or.inr ⟨hmem, fun hx => hx.elim hxy hns⟩

theorem mem_jsDedup {α : Type} [DecidableEq α] (x : α) (l : List α) :
    x ∈ jsDedup l ↔ x ∈ l := by
  simp [jsDedup, mem_jsDedupAux]

/-- Filtering with a weaker predicate first does not change the result of a
stronger filter: used for tenant-noninterference arguments below. -/
theorem filter_filter_of_imp {α : Type} (p q : α → Bool)
    (h : ∀ x, p x = true → q x = true) :
    ∀ l : List α, (l.filter q).filter p = l.filter p := by
  intro l
  induction l with
  | nil => rfl
  | cons x xs ih =>
    by_cases hp : p x = true
    · have hq := h x hp
      simp [List.filter_cons, hp, hq, ih]
    · have hp2 : p x = false := by
        cases hpx : p x
        · rfl
        · exact absurd hpx hp
      by_cases hq : q x = true
      · simp [List.filter_cons, hp2, hq, ih]
      · have hq2 : q x = false := by
          cases hqx : q x
          · rfl
          · exact absurd hqx hq
        simp [List.filter_cons, hp2, hq2, ih]

/-! ## src/middleware/rbac.middleware.js — request-local role/permission check -/

/-- Options bundle of the rbac middleware in src/middleware/rbac.middleware.js.
The `freezeUser` flag only controls an `Object.freeze` side effect and the
`denyMessage` only the response text; neither affects the verdict, so only the
verdict-relevant fields are carried. -/
structure StRbacOptions where
  roles : List String
  permissions : List String
  denyStatus : Nat
deriving DecidableEq

/-- The request user as read by rbac.middleware.js: `role` is `none` when
`user.role` is not a string (the middleware then treats it as the empty
string); `permissions` models `user.permissions` (a lone string in JS is
wrapped into a one-element array, which coincides with a singleton list). -/
structure StUser where
  id : Option Nat
  role : Option String
  permissions : List String
deriving DecidableEq

/-- Outcomes of the static middleware: 401, 403 for a reserved-name role,
deny with the configured status, or pass-through to the route handler. -/
inductive StOutcome where
  | unauthorized
  | invalidRole
  | deny (status : Nat)
  | allow
deriving DecidableEq

/-- The pattern of the middleware's prototype-pollution role check. -/
def protoPat : String := "__proto__"

/-- The second pattern of the role check. -/
def ctorPat : String := "constructor"

/-- `Array.from(new Set([...roles.map(r => String(r).toLowerCase()), 'owner']))`
of rbac.middleware.js: the allowed-role list is always augmented with the
literal role name owner. -/
def staticNormalizedRoles (roles : List String) : List String :=
  jsDedup (roles.map (fun r => jsToLower r) ++ ["owner"])

/-- Shallow embedding of the rbac middleware of src/middleware/rbac.middleware.js. -/
def staticRbac (opts : StRbacOptions) (user? : Option StUser) : StOutcome :=
  let normalizedRoles := staticNormalizedRoles opts.roles
  let normalizedPerms := opts.permissions.map (fun p => jsToLower p)
  match user? with
  | none => StOutcome.unauthorized
  | some user =>
    let userRole := match user.role with
      | some r => jsToLower r
      | none => ""
    if strIncludes userRole protoPat || strIncludes userRole ctorPat then
      StOutcome.invalidRole
    else
      let userPerms := user.permissions.map (fun p => jsToLower p)
      let hasRole := !normalizedRoles.isEmpty && normalizedRoles.any (fun r => r == userRole)
      let hasPerm := !normalizedPerms.isEmpty && normalizedPerms.any (fun p => userPerms.any (fun q => q == p))
      if !hasRole && !hasPerm then StOutcome.deny opts.denyStatus
      else StOutcome.allow

/-! ## src/backend/middleware/permission.middleware.js — flat DB-backed check -/

/-- A UserRole row as persisted by the final schema: keyed by `roleId`, with
an Int `tenantId` (the role itself is a relation, not a name column). -/
structure PmUserRole where
  userId : Nat
  roleId : Nat
  tenantId : Nat
deriving DecidableEq

/-- A RolePermission row as persisted by the final schema: `roleId`,
`permissionId` and `tenantId`, all Ints — the `role` name column that
permission.middleware.js still filters on was dropped by the migration. -/
structure PmRolePerm where
  roleId : Nat
  permissionId : Nat
  tenantId : Nat
deriving DecidableEq

/-- The two tables permission.middleware.js attempts to read. -/
structure PmDb where
  userRoles : List PmUserRole
  rolePerms : List PmRolePerm
deriving DecidableEq

/-- The authenticated user as read by permission.middleware.js. -/
structure PmUser where
  id : Option Nat
  role : String
  tenantId : String
deriving DecidableEq

/-- The request as read by permission.middleware.js: the user, whether a
tenant context with `isOwner` was attached by the tenant middleware, and
`req.tenantId` (`none` models an absent value, in which case the Prisma
query applies no tenant filter). -/
structure PmReq where
  user : Option PmUser
  tenantContextIsOwner : Bool
  tenantId : Option String
deriving DecidableEq

/-- Outcomes of permission.middleware.js: 401 Unauthorized, pass-through via
next(), or next(err) — the thrown query-validation error forwarded to the
central error handler. (The 403 insufficient-permissions response in the
source is unreachable against the final schema: the permission query throws
before it can be reached.) -/
inductive PmOutcome where
  | unauthorized
  | allow
  | errorForwarded
deriving DecidableEq

/-- Shallow embedding of `rbac(permissionName)` of
src/backend/middleware/permission.middleware.js against the final schema.
The owner/admin shortcuts are database-free and real. The non-shortcut path
issues `userRole.findMany({where: {userId, tenantId: req.tenantId},
select: {role: true}})` — which the Prisma client rejects whenever the
attached tenant id is a string (the column is an Int) — and in every case
`rolePermission.findFirst({where: {role: {in: roles}, ...}})`, which the
client always rejects because RolePermission no longer has a `role`
argument. Either way the thrown validation error reaches the catch and is
forwarded with next(err), independently of the store's contents, so the
verdict never depends on `db` or on `permissionName`. -/
def pmRbac (permissionName : String) (db : PmDb) (req : PmReq) : PmOutcome :=
  match req.user with
  | none => PmOutcome.unauthorized
  | some user =>
    if user.role == "owner" || req.tenantContextIsOwner ||
        (user.role == "owner" && user.tenantId == "0000000000") then
      PmOutcome.allow
    else if user.role == "admin" then
      PmOutcome.allow
    else
      PmOutcome.errorForwarded

/-! ## auditLog of src/backend/middleware/permission.middleware.js -/

/-- The request data the audit middleware reads. `topFields` models direct
properties of the request object (for the resourceId lookup), the other
three are the request body, route params and query string, each as a list
of key/value pairs. -/
structure AuditReq where
  userId : Option Nat
  topFields : List (String × String)
  body : List (String × String)
  params : List (String × String)
  query : List (String × String)
  ip : String
  userAgent : String
deriving DecidableEq

/-- The AuditLog row created on response finish: the `details` column is
`JSON.stringify({ body: req.body, params: req.params, query: req.query })`,
modelled by carrying the three field lists verbatim. -/
structure AuditRecord where
  userId : Option Nat
  action : String
  resource : String
  resourceId : Option String
  detailsBody : List (String × String)
  detailsParams : List (String × String)
  detailsQuery : List (String × String)
  ip : String
  userAgent : String
deriving DecidableEq

/-- Shallow embedding of the record created by `auditLog(action, resource,
resourceIdField)` of src/backend/middleware/permission.middleware.js. -/
def auditLogRecord (action resource : String) (resourceIdField : Option String)
    (req : AuditReq) : AuditRecord :=
  let resourceId := match resourceIdField with
    | some f => jsOr (req.topFields.lookup f) (req.params.lookup f)
    | none => none
  { userId := req.userId
    action := action
    resource := resource
    resourceId := resourceId
    detailsBody := req.body
    detailsParams := req.params
    detailsQuery := req.query
    ip := req.ip
    userAgent := req.userAgent }

/-! ## src/backend/middleware/sales.validation.js — hierarchical multi-tenant rbac -/

/-- A Role row as persisted: id, name, the optional parent role id stored in
the column `parentRoleId` (final migration, seed-rbac.js and the RBAC model
document all use this name), and owning tenant. -/
structure SRole where
  id : Nat
  name : String
  parentRoleId : Option Nat
  tenantId : Nat
deriving DecidableEq

/-- The value of the property read `role.parentId` in collectRoleAndParents
of sales.validation.js: the Role rows expose `parentRoleId`, not `parentId`,
so this read yields undefined on every row. -/
def roleParentIdRead (_role : SRole) : Option Nat := none

/-- A UserRole assignment row as consulted by the hierarchical middleware. -/
structure SUserRole where
  userId : Nat
  roleId : Nat
  orgUnitId : Option Nat
  tenantId : Nat
deriving DecidableEq

/-- A Permission row (the relation included by the RolePermission query). -/
structure SPermission where
  id : Nat
  name : String
  tenantId : Nat
deriving DecidableEq

/-- A RolePermission grant row with its included permission relation. -/
structure SRolePerm where
  roleId : Nat
  tenantId : Nat
  permission : SPermission
deriving DecidableEq

/-- Error raised by a failing database read. -/
inductive DbErr where
  | down
deriving DecidableEq

/-- The persistence layer as seen by the hierarchical middleware: the three
tables it queries, plus one failure flag per query site (`true` means the
corresponding Prisma call throws). -/
structure SDb where
  roles : List SRole
  userRoles : List SUserRole
  rolePerms : List SRolePerm
  userRolesFail : Bool
  roleFail : Bool
  rolePermsFail : Bool
deriving DecidableEq

/-- The authenticated user as read by the hierarchical middleware. -/
structure SUser where
  id : Nat
  tenantId : Option Nat
  orgUnitId : Option Nat
deriving DecidableEq

/-- The request as read by the hierarchical middleware. -/
structure SReq where
  user : Option SUser
  tenantId : Option Nat
  orgUnitId : Option Nat
  resource : Option String
  method : String
  baseUrl : String
  path : String
deriving DecidableEq

/-- Options bundle of the hierarchical rbac middleware (the `freezeUser` flag
and `denyMessage` are verdict-irrelevant and omitted as for `staticRbac`). -/
structure SOptions where
  roles : List String
  permissions : List String
  resourcePermissions : List (String × List String)
  actionPermissions : List (String × List String)
  denyStatus : Nat
deriving DecidableEq

/-- Outcomes of the hierarchical middleware: 401, 400 for a missing tenant,
pass-through, deny with the configured status, or the 500 produced by the
surrounding catch when a database read throws. -/
inductive SOutcome where
  | unauthorized
  | badRequest
  | allow
  | deny (status : Nat)
  | serverError
deriving DecidableEq

/-- The role-name normalization of the hierarchical middleware: identical to
the static middleware's, always adding the role name owner. -/
def salesNormalizedRoles (roles : List String) : List String :=
  jsDedup (roles.map (fun r => jsToLower r) ++ ["owner"])

/-- Step 1 of the middleware: the UserRole rows for this user and tenant,
additionally constrained by org unit when one is set on the request or user. -/
def salesAssignments (userRoles : List SUserRole) (userId tenantId : Nat)
    (orgUnitId : Option Nat) : List SUserRole :=
  userRoles.filter (fun ur =>
    ur.userId == userId && ur.tenantId == tenantId &&
      (match orgUnitId with
       | some o => ur.orgUnitId == some o
       | none => true))

/-- Shallow embedding of `collectRoleAndParents` of sales.validation.js: add
each newly seen role (the JS accumulates into a Map keyed by role id; `acc`
keeps its values in insertion order, and the membership test on ids is the
Map's `has`), then look at `role.parentId`. That property read is
`roleParentIdRead`, which is undefined on every row, so the recursive
parent-following branch below — kept for structural fidelity, with its
`prisma.role.findUnique` fetch (`roleFail = true` makes it throw) — is dead:
the walk never ascends and never recurses. The `fuel` argument is an
artifact of the embedding and, the recursion being dead, never influences
the result. -/
def collectRoleAndParents (roles : List SRole) (roleFail : Bool) :
    Nat → Option SRole → List SRole → Except DbErr (List SRole)
  | _, none, acc => Except.ok acc
  | fuel, some role, acc =>
    if acc.any (fun a => a.id == role.id) then Except.ok acc
    else
      match roleParentIdRead role with
      | none => Except.ok (acc ++ [role])
      | some pid =>
        match fuel with
        | 0 => Except.ok (acc ++ [role])
        | fuel' + 1 =>
          if roleFail then Except.error DbErr.down
          else
            collectRoleAndParents roles roleFail fuel'
              (roles.find? (fun r => r.id == pid)) (acc ++ [role])

/-- The `for (const ur of userRoles) await collectRoleAndParents(ur.role)`
loop: each assignment's role relation is resolved against the Role table and
folded into the shared accumulator. -/
def closureOfAssignments (roles : List SRole) (roleFail : Bool) (fuel : Nat) :
    List SUserRole → List SRole → Except DbErr (List SRole)
  | [], acc => Except.ok acc
  | ur :: rest, acc =>
    match collectRoleAndParents roles roleFail fuel
        (roles.find? (fun r => r.id == ur.roleId)) acc with
    | Except.error e => Except.error e
    | Except.ok acc2 => closureOfAssignments roles roleFail fuel rest acc2

/-- Step 4 of the middleware: the owner/admin shortcut condition on the
lower-cased names of the role closure. -/
def hasElevatedRole (rs : List SRole) : Bool :=
  let userRoleNames := rs.map (fun r => jsToLower r.name)
  userRoleNames.any (fun n => n == "owner") || userRoleNames.any (fun n => n == "admin")

/-- Step 5 of the middleware: the RolePermission rows for the closure's role
ids filtered by the request tenant, mapped to distinct lower-cased permission
names. -/
def salesAggregate (rolePerms : List SRolePerm) (rs : List SRole) (tenantId : Nat) :
    List String :=
  let allRoleIds := rs.map (fun r => r.id)
  let matching := rolePerms.filter (fun rp =>
    allRoleIds.any (fun i => i == rp.roleId) && rp.tenantId == tenantId)
  jsDedup (matching.map (fun rp => jsToLower rp.permission.name))

/-- The four requirement checks of the hierarchical middleware (roles,
permissions, per-resource permissions, per-action permissions), returning
whether any of them passes. -/
def salesDecide (opts : SOptions) (req : SReq) (userRoleNames userPerms : List String) :
    Bool :=
  let normalizedRoles := salesNormalizedRoles opts.roles
  let normalizedPerms := opts.permissions.map (fun p => jsToLower p)
  let normalizedResourcePerms := opts.resourcePermissions.map
    (fun kv => (jsToLower kv.1, kv.2.map (fun p => jsToLower p)))
  let normalizedActionPerms := opts.actionPermissions.map
    (fun kv => (jsToUpper kv.1, kv.2.map (fun p => jsToLower p)))
  let hasRole := !normalizedRoles.isEmpty &&
    userRoleNames.any (fun r => normalizedRoles.any (fun n => n == r))
  let hasPerm := !normalizedPerms.isEmpty &&
    normalizedPerms.any (fun p => userPerms.any (fun q => q == p))
  let hasResourcePerm := !normalizedResourcePerms.isEmpty &&
    (match req.resource with
     | some resc =>
       match normalizedResourcePerms.lookup (jsToLower resc) with
       | some ps => ps.any (fun p => userPerms.any (fun q => q == p))
       | none => false
     | none => false)
  let actionKey := jsToUpper req.method ++ ":" ++ req.baseUrl ++ req.path
  let baseActionKey := jsToUpper req.method ++ ":" ++ req.baseUrl
  let hasActionPerm := !normalizedActionPerms.isEmpty &&
    (match normalizedActionPerms.lookup actionKey with
     | some ps => ps.any (fun p => userPerms.any (fun q => q == p))
     | none =>
       match normalizedActionPerms.lookup baseActionKey with
       | some ps => ps.any (fun p => userPerms.any (fun q => q == p))
       | none => false)
  hasRole || hasPerm || hasResourcePerm || hasActionPerm

/-- The body of the hierarchical rbac middleware, in an error monad: any
`Except.error` corresponds to a thrown database exception reaching the
middleware's catch block. -/
def srbacE (opts : SOptions) (db : SDb) (req : SReq) (fuel : Nat) :
    Except DbErr SOutcome :=
  match req.user with
  | none => Except.ok SOutcome.unauthorized
  | some user =>
    match jsOr req.tenantId user.tenantId with
    | none => Except.ok SOutcome.badRequest
    | some tenantId =>
      if db.userRolesFail then Except.error DbErr.down
      else
        let urs := salesAssignments db.userRoles user.id tenantId
          (jsOr req.orgUnitId user.orgUnitId)
        match closureOfAssignments db.roles db.roleFail fuel urs [] with
        | Except.error e => Except.error e
        | Except.ok allRoles =>
          if hasElevatedRole allRoles then Except.ok SOutcome.allow
          else if db.rolePermsFail then Except.error DbErr.down
          else
            let userRoleNames := allRoles.map (fun r => jsToLower r.name)
            let userPerms := salesAggregate db.rolePerms allRoles tenantId
            if salesDecide opts req userRoleNames userPerms then Except.ok SOutcome.allow
            else Except.ok (SOutcome.deny opts.denyStatus)

/-- Shallow embedding of the hierarchical rbac middleware of
src/backend/middleware/sales.validation.js: the catch block turns any thrown
database error into a 500 response. -/
def srbac (opts : SOptions) (db : SDb) (req : SReq) (fuel : Nat) : SOutcome :=
  match srbacE opts db req fuel with
  | Except.ok o => o
  | Except.error _ => SOutcome.serverError

/-! ## tenant middleware of src/backend/middleware/logger.middleware.js -/

/-- The user as read by the tenant middleware. -/
structure TUser where
  tenantId : Option String
  role : String
deriving DecidableEq

/-- The request as read by the tenant middleware: the authenticated user, the
x-tenant-id header when present as a string, and the hostname. -/
structure TReq where
  user : Option TUser
  xTenantId : Option String
  hostname : Option String
deriving DecidableEq

/-- Options of the tenant middleware: the optional allow-list (compared after
`map(String)`, hence strings) and the pluggable resolver, which may throw
(`Except.error`) or return a possibly-absent value. -/
structure TOptions where
  allowedTenants : Option (List String)
  tenantResolver : Option (TReq → Except Unit (Option String))

/-- The tenant context the middleware attaches to the request (the logging
metadata fields source, time, path and ip are omitted as verdict-irrelevant). -/
structure TenantCtx where
  tenantId : String
  isOwner : Bool
deriving DecidableEq

/-- Outcomes of the tenant middleware. -/
inductive TOutcome where
  | resolverError
  | invalidHeader
  | notAllowed
  | missing
  | next (ctx : TenantCtx)
deriving DecidableEq

/-- HTTP status of each terminal outcome (`none` for pass-through). -/
def tStatus : TOutcome → Option Nat
  | TOutcome.resolverError => some 500
  | TOutcome.invalidHeader => some 400
  | TOutcome.notAllowed => some 403
  | TOutcome.missing => some 400
  | TOutcome.next _ => none

/-- Log events emitted by the tenant middleware, in emission order. -/
inductive TEvent where
  | resolverErrorLogged
  | headerInvalid
  | debug
  | ownerCheat
  | notAllowedLogged
  | resolved
  | missingLogged
deriving DecidableEq

/-- The reserved header values rejected to prevent prototype pollution. -/
def reservedNames : List String := ["__proto__", "constructor", "prototype"]

/-- Result of steps 1–4 of the tenant middleware plus the normalization
`String(tenantId).trim()`: either the resolver threw, or the header was a
reserved name, or a possibly-absent trimmed candidate tenant id. -/
inductive RawResolve where
  | err
  | invalidHeader
  | val (t : Option String)
deriving DecidableEq

/-- `String(tenantId).trim()` applied when the candidate is not
undefined/null. -/
def normalizeT (t : Option String) : Option String :=
  t.map (fun s => jsTrim s)

/-- Step 4 of the middleware: extract the leftmost host label when the
hostname is truthy and has more than two labels. -/
def hostStep (req : TReq) (t1 : Option String) : RawResolve :=
  match req.hostname with
  | some h =>
    if h == "" then RawResolve.val (normalizeT t1)
    else
      if 2 < (jsSplitDot h).length then
        RawResolve.val (normalizeT (some (jsHead (jsSplitDot h))))
      else RawResolve.val (normalizeT t1)
  | none => RawResolve.val (normalizeT t1)

/-- Steps 2–4 of the tenant middleware, starting from the candidate produced
by the custom resolver: the user's tenant claim, then the trimmed
x-tenant-id header (rejecting reserved names), then the subdomain, followed
by the trim normalization. -/
def rawResolveFrom (req : TReq) (t0 : Option String) : RawResolve :=
  let t1 := if jsTruthy t0 then t0
    else
      match req.user with
      | some u => if jsTruthy u.tenantId then u.tenantId else t0
      | none => t0
  if jsTruthy t1 then RawResolve.val (normalizeT t1)
  else
    match req.xTenantId with
    | some hv =>
      if jsTrim hv == "" then hostStep req t1
      else
        if reservedNames.any (fun n => n == jsTrim hv) then RawResolve.invalidHeader
        else RawResolve.val (normalizeT (some (jsTrim hv)))
    | none => hostStep req t1

/-- Steps 1–4 of the tenant middleware: the custom resolver (a throw is a
500), then `rawResolveFrom`. -/
def rawResolve (opts : TOptions) (req : TReq) : RawResolve :=
  match opts.tenantResolver with
  | some f =>
    match f req with
    | Except.error _ => RawResolve.err
    | Except.ok t0 => rawResolveFrom req t0
  | none => rawResolveFrom req none

/-- Whether the request's user has the owner role. -/
def userIsOwner (req : TReq) : Bool :=
  match req.user with
  | some u => u.role == "owner"
  | none => false

/-- The two super-tenant sentinel values of the owner cheat code. -/
def isSentinel (t : String) : Bool :=
  t == "0000000000" || t == "1"

/-- Shallow embedding of the tenant middleware of
src/backend/middleware/logger.middleware.js, returning the outcome and the
log events emitted on that path. The second owner-cheat check inside the
`if (tenantId)` block is kept even though the identical check just above it
makes it unreachable. -/
def tenantMiddleware (opts : TOptions) (req : TReq) : TOutcome × List TEvent :=
  match rawResolve opts req with
  | RawResolve.err => (TOutcome.resolverError, [TEvent.resolverErrorLogged])
  | RawResolve.invalidHeader => (TOutcome.invalidHeader, [TEvent.headerInvalid])
  | RawResolve.val t? =>
    match t? with
    | some tid =>
      if isSentinel tid && userIsOwner req then
        (TOutcome.next ⟨tid, true⟩, [TEvent.ownerCheat])
      else
        if !(tid == "") then
          if isSentinel tid && userIsOwner req then
            (TOutcome.next ⟨tid, true⟩, [TEvent.debug, TEvent.ownerCheat])
          else
            match opts.allowedTenants with
            | some allowed =>
              if !(allowed.any (fun a => a == tid)) then
                (TOutcome.notAllowed, [TEvent.debug, TEvent.notAllowedLogged])
              else
                (TOutcome.next ⟨tid, isSentinel tid && userIsOwner req⟩,
                  [TEvent.debug, TEvent.resolved])
            | none =>
              (TOutcome.next ⟨tid, isSentinel tid && userIsOwner req⟩,
                [TEvent.debug, TEvent.resolved])
        else (TOutcome.missing, [TEvent.missingLogged])
    | none => (TOutcome.missing, [TEvent.missingLogged])

/-- A protected route: the tenant middleware runs first and the permission
middleware only runs when it passed, on a request built from the attached
tenant context. -/
inductive PipeOutcome where
  | rejected (o : TOutcome)
  | decided (o : PmOutcome)
deriving DecidableEq

/-- Composition of the tenant middleware with the permission middleware, as
on the protected routes: `mk` is how the route adapts the enriched request. -/
def tenantThenRbac (topts : TOptions) (treq : TReq) (perm : String) (db : PmDb)
    (mk : TenantCtx → PmReq) : PipeOutcome :=
  match (tenantMiddleware topts treq).1 with
  | TOutcome.next ctx => PipeOutcome.decided (pmRbac perm db (mk ctx))
  | o => PipeOutcome.rejected o

/-! ## Spec-side tenant resolution order (for comparison with the code) -/

/-- Modelled from the spec's words, source (a): the tenant id produced by the
pluggable custom resolver, when one is configured and yields one. -/
def specSourceCustom (opts : TOptions) (req : TReq) : Option String :=
  match opts.tenantResolver with
  | some f =>
    match f req with
    | Except.ok v => if jsTruthy v then v else none
    | Except.error _ => none
  | none => none

/-- Modelled from the spec's words, source (b): the tenant claim already
present on the authenticated principal. -/
def specSourceClaim (req : TReq) : Option String :=
  match req.user with
  | some u => if jsTruthy u.tenantId then u.tenantId else none
  | none => none

/-- Modelled from the spec's words, source (c): the trimmed dedicated header,
when present and non-blank. -/
def specSourceHeader (req : TReq) : Option String :=
  match req.xTenantId with
  | some hv => if jsTrim hv == "" then none else some (jsTrim hv)
  | none => none

/-- Modelled from the spec's words, source (d): the leftmost label of the
request host when it has more than two DNS labels. -/
def specSourceHost (req : TReq) : Option String :=
  match req.hostname with
  | some h =>
    if 2 < (jsSplitDot h).length then some (jsHead (jsSplitDot h))
    else none
  | none => none

/-- The spec's resolution order: first match among sources (a)–(d) wins. -/
def specResolutionOrder (opts : TOptions) (req : TReq) : Option String :=
  jsOr (jsOr (jsOr (specSourceCustom opts req) (specSourceClaim req))
    (specSourceHeader req)) (specSourceHost req)

/-! ## Fuel stability of the closure walk -/

/-- The closure walk never inspects the fuel: its recursive branch is dead
(`roleParentIdRead` is always `none`), so any two fuel budgets give the same
result — the formal statement that the walk terminates immediately, within
one step per assigned role. -/
theorem collect_fuel_irrelevant (roles : List SRole) (rf : Bool)
    (fuel1 fuel2 : Nat) (role? : Option SRole) (acc : List SRole) :
    collectRoleAndParents roles rf fuel1 role? acc =
      collectRoleAndParents roles rf fuel2 role? acc := by
  cases role? with
  | none => simp [collectRoleAndParents]
  | some role => simp [collectRoleAndParents, roleParentIdRead]

theorem closure_fuel_irrelevant (roles : List SRole) (rf : Bool) :
    ∀ (urs : List SUserRole) (acc : List SRole) (fuel1 fuel2 : Nat),
      closureOfAssignments roles rf fuel1 urs acc =
        closureOfAssignments roles rf fuel2 urs acc := by
  intro urs
  induction urs with
  | nil => intro acc fuel1 fuel2; rfl
  | cons ur rest ih =>
    intro acc fuel1 fuel2
    simp only [closureOfAssignments]
    rw [collect_fuel_irrelevant roles rf fuel1 fuel2]
    cases hres : collectRoleAndParents roles rf fuel2
        (roles.find? (fun r => r.id == ur.roleId)) acc with
    | error e => rfl
    | ok acc2 => exact ih acc2 fuel1 fuel2

theorem srbac_fuel_irrelevant (opts : SOptions) (db : SDb) (req : SReq)
    (fuel1 fuel2 : Nat) :
    srbac opts db req fuel1 = srbac opts db req fuel2 := by
  cases hu : req.user with
  | none => simp [srbac, srbacE, hu]
  | some user =>
    cases ht : jsOr req.tenantId user.tenantId with
    | none => simp [srbac, srbacE, hu, ht]
    | some T =>
      cases hf : db.userRolesFail with
      | true => simp [srbac, srbacE, hu, ht, hf]
      | false =>
        simp only [srbac, srbacE, hu, ht, hf, Bool.false_eq_true, if_false]
        rw [closure_fuel_irrelevant db.roles db.roleFail
          (salesAssignments db.userRoles user.id T (jsOr req.orgUnitId user.orgUnitId))
          [] fuel1 fuel2]

/-- The verdict of the hierarchical middleware depends on the database only
through the failure flags, the Role table, the selected assignments and the
tenant-scoped aggregate: two databases agreeing on those agree on every
verdict. -/
theorem srbac_ext (opts : SOptions) (db1 db2 : SDb) (req : SReq) (fuel : Nat)
    (hf1 : db1.userRolesFail = db2.userRolesFail)
    (hf2 : db1.roleFail = db2.roleFail)
    (hf3 : db1.rolePermsFail = db2.rolePermsFail)
    (hr : db1.roles = db2.roles)
    (hur : ∀ u T, req.user = some u → jsOr req.tenantId u.tenantId = some T →
      salesAssignments db1.userRoles u.id T (jsOr req.orgUnitId u.orgUnitId) =
        salesAssignments db2.userRoles u.id T (jsOr req.orgUnitId u.orgUnitId))
    (hag : ∀ u T, req.user = some u → jsOr req.tenantId u.tenantId = some T →
      ∀ rs, salesAggregate db1.rolePerms rs T = salesAggregate db2.rolePerms rs T) :
    srbac opts db1 req fuel = srbac opts db2 req fuel := by
  cases hu : req.user with
  | none => simp [srbac, srbacE, hu]
  | some user =>
    cases ht : jsOr req.tenantId user.tenantId with
    | none => simp [srbac, srbacE, hu, ht]
    | some T =>
      simp only [srbac, srbacE, hu, ht]
      rw [hf1, hf2, hr, hur user T hu ht]
      cases hclos : closureOfAssignments db2.roles db2.roleFail fuel
          (salesAssignments db2.userRoles user.id T (jsOr req.orgUnitId user.orgUnitId))
          [] with
      | error e => rfl
      | ok allRoles =>
        simp only [hf3, hag user T hu ht]


/-- A canonical candidate tenant value: when present it is already trimmed
and non-empty. Requests whose sources satisfy this are exactly those on
which the trim normalization is the identity. -/
def canonicalOpt (v : Option String) : Prop :=
  ∀ s, v = some s → jsTrim s = s ∧ s ≠ ""

theorem canonicalOpt_none : canonicalOpt none := by
  intro s h
  exact absurd h (by simp)

theorem eq_none_of_not_truthy (v : Option String) (hc : canonicalOpt v)
    (h : jsTruthy v = false) : v = none := by
  cases v with
  | none => rfl
  | some s =>
    have hs := hc s rfl
    simp only [jsTruthy, Bool.not_eq_false', beq_iff_eq] at h
    exact absurd h hs.2

theorem normalizeT_of_canonical (v : Option String) (hc : canonicalOpt v) :
    normalizeT v = v := by
  cases v with
  | none => rfl
  | some s => simp [normalizeT, (hc s rfl).1]

/-- Well-formedness of a request for the resolution-order theorem: each
source, when it produces a value, produces a canonical one; the header does
not collide with a reserved name; the resolver does not throw. -/
structure WfTenantReq (opts : TOptions) (req : TReq) : Prop where
  resolverOk : ∀ f, opts.tenantResolver = some f →
    ∃ v, f req = Except.ok v ∧ canonicalOpt v
  claimOk : ∀ u, req.user = some u → canonicalOpt u.tenantId
  hostOk : ∀ h, req.hostname = some h → 2 < (jsSplitDot h).length →
    jsTrim (jsHead (jsSplitDot h)) = jsHead (jsSplitDot h) ∧ jsHead (jsSplitDot h) ≠ ""
  headerOk : ∀ s, req.xTenantId = some s →
    reservedNames.any (fun n => n == jsTrim s) = false ∧ jsTrim (jsTrim s) = jsTrim s

theorem hostStep_eq_spec (req : TReq)
    (hhost : ∀ h, req.hostname = some h → 2 < (jsSplitDot h).length →
      jsTrim (jsHead (jsSplitDot h)) = jsHead (jsSplitDot h) ∧
        jsHead (jsSplitDot h) ≠ "") :
    hostStep req none = RawResolve.val (specSourceHost req) := by
  cases hh : req.hostname with
  | none => simp [hostStep, specSourceHost, hh, normalizeT]
  | some h =>
    by_cases hz : (h == "") = true
    · have hzs : h = "" := by simpa using hz
      subst hzs
      have hlen : (jsSplitDot ("")).length = 1 := rfl
      simp [hostStep, specSourceHost, hh, hz, normalizeT, hlen]
    · have hz2 : (h == "") = false := by
        cases hb : (h == "")
        · rfl
        · exact absurd hb hz
      by_cases hl : 2 < (jsSplitDot h).length
      · have hlab := hhost h hh hl
        simp [hostStep, specSourceHost, hh, hz2, hl, normalizeT, hlab.1]
      · simp [hostStep, specSourceHost, hh, hz2, hl, normalizeT]

theorem rawResolveFrom_eq_spec (req : TReq) (t0 : Option String)
    (hc0 : canonicalOpt t0)
    (hclaim : ∀ u, req.user = some u → canonicalOpt u.tenantId)
    (hhost : ∀ h, req.hostname = some h → 2 < (jsSplitDot h).length →
      jsTrim (jsHead (jsSplitDot h)) = jsHead (jsSplitDot h) ∧
        jsHead (jsSplitDot h) ≠ "")
    (hheader : ∀ s, req.xTenantId = some s →
      reservedNames.any (fun n => n == jsTrim s) = false ∧
        jsTrim (jsTrim s) = jsTrim s) :
    rawResolveFrom req t0 =
      RawResolve.val (jsOr (jsOr (jsOr (if jsTruthy t0 then t0 else none)
        (specSourceClaim req)) (specSourceHeader req)) (specSourceHost req)) := by
  by_cases h0 : jsTruthy t0 = true
  · cases t0 with
    | none => simp [jsTruthy] at h0
    | some s =>
      have hs := hc0 s rfl
      simp [rawResolveFrom, h0, normalizeT, hs.1, jsOr]
  · have h0f : jsTruthy t0 = false := by
      cases hb : jsTruthy t0
      · rfl
      · exact absurd hb h0
    have ht0 : t0 = none := eq_none_of_not_truthy t0 hc0 h0f
    subst ht0
    cases hu : req.user with
    | none =>
      have hclaimNone : specSourceClaim req = none := by simp [specSourceClaim, hu]
      cases hx : req.xTenantId with
      | none =>
        have hdrNone : specSourceHeader req = none := by simp [specSourceHeader, hx]
        simp only [rawResolveFrom, jsTruthy, hu, hx, Bool.false_eq_true, if_false]
        rw [hostStep_eq_spec req hhost]
        simp [hclaimNone, hdrNone, jsOr]
      | some hv =>
        by_cases hb : (jsTrim hv == "") = true
        · have hdrNone : specSourceHeader req = none := by
            simp [specSourceHeader, hx, hb]
          simp only [rawResolveFrom, jsTruthy, hu, hx, hb, Bool.false_eq_true,
            if_false, if_pos]
          rw [hostStep_eq_spec req hhost]
          simp [hclaimNone, hdrNone, jsOr]
        · have hb2 : (jsTrim hv == "") = false := by
            cases hq : (jsTrim hv == "")
            · rfl
            · exact absurd hq hb
          have hres := hheader hv hx
          have hdr : specSourceHeader req = some (jsTrim hv) := by
            simp [specSourceHeader, hx, hb2]
          simp only [rawResolveFrom, jsTruthy, hu, hx, hb2, hres.1,
            Bool.false_eq_true, if_false]
          simp [normalizeT, hres.2, hclaimNone, hdr, jsOr]
    | some u =>
      cases hct : jsTruthy u.tenantId with
      | true =>
        cases hut : u.tenantId with
        | none => simp [jsTruthy, hut] at hct
        | some cs =>
          have hcs := hclaim u hu cs hut
          have hcne : (cs == "") = false := by simp [hcs.2]
          have hclaimS : specSourceClaim req = some cs := by
            simp [specSourceClaim, hu, hut, jsTruthy, hcne]
          simp [rawResolveFrom, hu, hut, jsTruthy, hcne, normalizeT, hcs.1,
            hclaimS, jsOr]
      | false =>
        have hutn : u.tenantId = none :=
          eq_none_of_not_truthy u.tenantId (hclaim u hu) hct
        have hclaimNone : specSourceClaim req = none := by
          simp [specSourceClaim, hu, hct]
        cases hx : req.xTenantId with
        | none =>
          have hdrNone : specSourceHeader req = none := by
            simp [specSourceHeader, hx]
          simp only [rawResolveFrom, jsTruthy, hu, hutn, hx, Bool.false_eq_true,
            if_false]
          rw [hostStep_eq_spec req hhost]
          simp [hclaimNone, hdrNone, jsOr]
        | some hv =>
          by_cases hb : (jsTrim hv == "") = true
          · have hdrNone : specSourceHeader req = none := by
              simp [specSourceHeader, hx, hb]
            simp only [rawResolveFrom, jsTruthy, hu, hutn, hx, hb,
              Bool.false_eq_true, if_false, if_pos]
            rw [hostStep_eq_spec req hhost]
            simp [hclaimNone, hdrNone, jsOr]
          · have hb2 : (jsTrim hv == "") = false := by
              cases hq : (jsTrim hv == "")
              · rfl
              · exact absurd hq hb
            have hres := hheader hv hx
            have hdr : specSourceHeader req = some (jsTrim hv) := by
              simp [specSourceHeader, hx, hb2]
            simp only [rawResolveFrom, jsTruthy, hu, hutn, hx, hb2, hres.1,
              Bool.false_eq_true, if_false]
            simp [normalizeT, hres.2, hclaimNone, hdr, jsOr]

theorem rawResolve_eq_spec (opts : TOptions) (req : TReq)
    (hw : WfTenantReq opts req) :
    rawResolve opts req = RawResolve.val (specResolutionOrder opts req) := by
  cases hr : opts.tenantResolver with
  | none =>
    have hcust : specSourceCustom opts req = none := by simp [specSourceCustom, hr]
    simp only [rawResolve, hr]
    rw [rawResolveFrom_eq_spec req none canonicalOpt_none hw.claimOk hw.hostOk
      hw.headerOk]
    simp [specResolutionOrder, hcust, jsTruthy]
  | some f =>
    obtain ⟨v, hfv, hcv⟩ := hw.resolverOk f hr
    have hcust : specSourceCustom opts req = if jsTruthy v then v else none := by
      simp [specSourceCustom, hr, hfv]
    simp only [rawResolve, hr, hfv]
    rw [rawResolveFrom_eq_spec req v hcv hw.claimOk hw.hostOk hw.headerOk]
    simp [specResolutionOrder, hcust]

/-! ## Claim theorems -/

/-- The permission name used by the cross-tenant counterexamples and the
scenario theorems. -/
def invView : String := "inventory:view"

/-- A permission name used by generic fixtures. -/
def editPerm : String := "product:edit"

/-- Drop every RolePermission row recorded under tenant `a`. -/
def dropTenantRolePerms (a : Nat) (db : SDb) : SDb :=
  { db with rolePerms := db.rolePerms.filter (fun rp => !(rp.tenantId == a)) }

/-- Drop every UserRole assignment recorded under tenant `a`. -/
def dropTenantUserRoles (a : Nat) (db : SDb) : SDb :=
  { db with userRoles := db.userRoles.filter (fun ur => !(ur.tenantId == a)) }

/-- C1: tenant isolation of permission aggregation. (1) For the hierarchical
middleware of sales.validation.js, whose RolePermission query is filtered by
the resolved tenant, deleting every grant recorded under any other tenant
`a` never changes the verdict, so a tenant-B grant can never satisfy a
tenant-A request even with colliding names. (2) For the flat middleware of
permission.middleware.js the verdict never depends on the store at all: its
non-shortcut path cannot complete any query against the final schema and
always forwards the thrown error, so changing tenant B's catalog never
changes any verdict there either. -/
theorem c1_tenant_isolation :
    (∀ (opts : SOptions) (db : SDb) (req : SReq) (fuel a : Nat),
      (∀ u, req.user = some u → jsOr req.tenantId u.tenantId ≠ some a) →
      srbac opts (dropTenantRolePerms a db) req fuel = srbac opts db req fuel) ∧
    (∀ (perm : String) (db1 db2 : PmDb) (preq : PmReq),
      pmRbac perm db1 preq = pmRbac perm db2 preq) := by
  constructor
  · intro opts db req fuel a h
    apply srbac_ext
    · rfl
    · rfl
    · rfl
    · rfl
    · intro u T _ _
      rfl
    · intro u T hu ht rs
      have hTa : T ≠ a := by
        intro hEq
        exact h u hu (hEq ▸ ht)
      simp only [salesAggregate, dropTenantRolePerms]
      rw [filter_filter_of_imp
        (fun rp => (rs.map (fun r => r.id)).any (fun i => i == rp.roleId) &&
          rp.tenantId == T)
        (fun rp => !(rp.tenantId == a))
        (by
          intro x hx
          have hxT : x.tenantId = T := by
            have h2 := hx
            simp only [Bool.and_eq_true, beq_iff_eq] at h2
            exact h2.2
          simp [hxT, hTa])
        db.rolePerms]
  · intro perm db1 db2 preq
    rfl

/-- C1 witness fixture: a tenant-1 database alongside a foreign tenant-2
grant row. -/
def w1db : SDb :=
  { roles := [{ id := 1, name := "cashier", parentRoleId := none, tenantId := 1 }]
    userRoles := [{ userId := 1, roleId := 1, orgUnitId := none, tenantId := 1 }]
    rolePerms :=
      [{ roleId := 1, tenantId := 2,
         permission := { id := 5, name := "inventory:view", tenantId := 2 } }]
    userRolesFail := false
    roleFail := false
    rolePermsFail := false }

/-- C1 witness user. -/
def w1user : SUser := { id := 1, tenantId := some 1, orgUnitId := none }

/-- C1 witness request (resolves to tenant 1). -/
def w1req : SReq :=
  { user := some w1user, tenantId := none, orgUnitId := none, resource := none,
    method := "GET", baseUrl := "/api/inventory", path := "/list" }

/-- C1 witness options. -/
def w1opts : SOptions :=
  { roles := [], permissions := ["inventory:view"], resourcePermissions := [],
    actionPermissions := [], denyStatus := 403 }

/-- C1 witness flat-middleware stores: two different catalogs. -/
def w1pmdb1 : PmDb := { userRoles := [], rolePerms := [] }

/-- C1 witness flat-middleware second store, holding tenant-2 rows. -/
def w1pmdb2 : PmDb :=
  { userRoles := [{ userId := 7, roleId := 1, tenantId := 2 }]
    rolePerms := [{ roleId := 1, permissionId := 5, tenantId := 2 }] }

/-- C1 witness flat-middleware request. -/
def w1pmreq : PmReq :=
  { user := some { id := some 7, role := "cashier", tenantId := "1" },
    tenantContextIsOwner := false, tenantId := some ("1") }

theorem c1_tenant_isolation_witness :
    (srbac w1opts (dropTenantRolePerms 2 w1db) w1req 3 = srbac w1opts w1db w1req 3 ∧
      srbac w1opts w1db w1req 3 = SOutcome.deny 403) ∧
    pmRbac editPerm w1pmdb1 w1pmreq = pmRbac editPerm w1pmdb2 w1pmreq := by
  refine ⟨⟨?_, by decide⟩, c1_tenant_isolation.2 editPerm w1pmdb1 w1pmdb2 w1pmreq⟩
  apply c1_tenant_isolation.1
  intro u hu
  have hu2 : u = w1user := by
    simpa [w1req] using hu.symm
  subst hu2
  decide

/-- C2 counterexample fixture: a principal whose base role is owner under
tenant A, making a request resolved to tenant B. -/
def c2user : PmUser := { id := some 9, role := "owner", tenantId := "A" }

/-- C2 counterexample request (resolved tenant B). -/
def c2req : PmReq :=
  { user := some c2user, tenantContextIsOwner := false, tenantId := some ("B") }

/-- C2 counterexample database: no grants at all under tenant B. -/
def c2db : PmDb := { userRoles := [], rolePerms := [] }

/-- C2, counterexample: the flat middleware's owner shortcut tests the
principal's base role property, not the tenant-scoped role closure of the
request's tenant, so an owner base role carried from tenant A authorizes an
action under tenant B's resolved context even though tenant B records no
role or grant for the principal. This refutes the claim as stated for
permission.middleware.js. -/
theorem c2_owner_shortcut_crosses_tenants :
    c2user.tenantId = "A" ∧ c2req.tenantId = some ("B") ∧
    c2db.userRoles = [] ∧ c2db.rolePerms = [] ∧
    pmRbac editPerm c2db c2req = PmOutcome.allow := by
  refine ⟨rfl, rfl, rfl, rfl, by decide⟩

/-- C2: in the hierarchical middleware the owner/admin shortcut is
tenant-scoped: it fires only on the names of the closure built from the
request tenant's UserRole rows, so deleting every role assignment recorded
under any other tenant `a` — in particular an owner assignment in tenant A —
never changes the verdict of a request resolved to a different tenant. -/
theorem c2_shortcut_tenant_scoped (opts : SOptions) (db : SDb) (req : SReq)
    (fuel : Nat) (a : Nat)
    (h : ∀ u, req.user = some u → jsOr req.tenantId u.tenantId ≠ some a) :
    srbac opts (dropTenantUserRoles a db) req fuel = srbac opts db req fuel := by
  apply srbac_ext
  · rfl
  · rfl
  · rfl
  · rfl
  · intro u T hu ht
    have hTa : T ≠ a := by
      intro hEq
      exact h u hu (hEq ▸ ht)
    simp only [salesAssignments, dropTenantUserRoles]
    rw [filter_filter_of_imp
      (fun ur => ur.userId == u.id && ur.tenantId == T &&
        (match jsOr req.orgUnitId u.orgUnitId with
         | some o => ur.orgUnitId == some o
         | none => true))
      (fun ur => !(ur.tenantId == a))
      (by
        intro x hx
        have hxT : x.tenantId = T := by
          have h2 := hx
          simp only [Bool.and_eq_true, beq_iff_eq] at h2
          exact h2.1.2
        simp [hxT, hTa])
      db.userRoles]
  · intro u T _ _ rs
    rfl

/-- C2 witness fixture: tenant 2 assigns the principal a role named owner;
the request resolves to tenant 1. -/
def w2db : SDb :=
  { roles := [{ id := 1, name := "owner", parentRoleId := none, tenantId := 2 }]
    userRoles := [{ userId := 1, roleId := 1, orgUnitId := none, tenantId := 2 }]
    rolePerms := []
    userRolesFail := false
    roleFail := false
    rolePermsFail := false }

/-- C2 witness user. -/
def w2user : SUser := { id := 1, tenantId := some 1, orgUnitId := none }

/-- C2 witness request (resolves to tenant 1). -/
def w2req : SReq :=
  { user := some w2user, tenantId := none, orgUnitId := none, resource := none,
    method := "POST", baseUrl := "/api/products", path := "" }

/-- C2 witness options. -/
def w2opts : SOptions :=
  { roles := [], permissions := ["product:edit"], resourcePermissions := [],
    actionPermissions := [], denyStatus := 403 }

theorem c2_shortcut_tenant_scoped_witness :
    srbac w2opts (dropTenantUserRoles 2 w2db) w2req 3 = srbac w2opts w2db w2req 3 ∧
    srbac w2opts w2db w2req 3 = SOutcome.deny 403 := by
  constructor
  · apply c2_shortcut_tenant_scoped
    intro u hu
    have hu2 : u = w2user := by
      simpa [w2req] using hu.symm
    subst hu2
    decide
  · decide

/-- C3 fixture: a corrupted role graph with the parent cycle R1→R2→R1, an
assignment of R1, and a requirement the principal does not meet. -/
def c3db : SDb :=
  { roles :=
      [{ id := 1, name := "r1", parentRoleId := some 2, tenantId := 1 },
       { id := 2, name := "r2", parentRoleId := some 1, tenantId := 1 }]
    userRoles := [{ userId := 1, roleId := 1, orgUnitId := none, tenantId := 1 }]
    rolePerms := []
    userRolesFail := false
    roleFail := false
    rolePermsFail := false }

/-- C3 request. -/
def c3req : SReq :=
  { user := some { id := 1, tenantId := some 1, orgUnitId := none },
    tenantId := none, orgUnitId := none, resource := none,
    method := "GET", baseUrl := "/api/inventory", path := "/list" }

/-- C3 options. -/
def c3opts : SOptions :=
  { roles := [], permissions := ["inventory:view"], resourcePermissions := [],
    actionPermissions := [], denyStatus := 403 }

/-- C3, counterexample: on the stored parent cycle R1→R2→R1 the run
terminates and the middleware produces an ordinary verdict — here Deny
403 — rather than any InternalAuthzError: no cycle-detected error path
exists in the code. This refutes the second half of the claim as stated. -/
theorem c3_cycle_yields_normal_verdict :
    c3db.roles.map SRole.parentRoleId = [some 2, some 1] ∧
    srbac c3opts c3db c3req 3 = SOutcome.deny 403 ∧
    SOutcome.deny 403 ≠ SOutcome.serverError := by
  refine ⟨rfl, by decide, by decide⟩

/-- C3, amended: the closure computation always terminates within a number
of steps bounded by the number of roles — trivially so, because the walk
never traverses the parent chain at all: the code reads role.parentId while
the rows carry parentRoleId, so every verdict is independent of the fuel
budget, cyclic graphs included — and on the concrete cyclic graph the run
completes, for every budget, with the normal verdict Deny 403 computed from
the directly assigned roles instead of an InternalAuthzError. -/
theorem c3_cycle_walk_bounded :
    (∀ (opts : SOptions) (db : SDb) (req : SReq) (fuel1 fuel2 : Nat),
      srbac opts db req fuel1 = srbac opts db req fuel2) ∧
    (∀ fuel : Nat, srbac c3opts c3db c3req fuel = SOutcome.deny 403) := by
  constructor
  · intro opts db req fuel1 fuel2
    exact srbac_fuel_irrelevant opts db req fuel1 fuel2
  · intro fuel
    have hstep : srbac c3opts c3db c3req fuel = srbac c3opts c3db c3req 3 :=
      srbac_fuel_irrelevant c3opts c3db c3req fuel 3
    rw [hstep]
    decide

theorem c3_cycle_walk_bounded_witness :
    srbac c3opts c3db c3req 10 = SOutcome.deny 403 :=
  c3_cycle_walk_bounded.2 10

/-- C4 scenario roles: manager → director → vp in tenant 5, chained through
the persisted parentRoleId column. -/
def mgrRole : SRole := { id := 1, name := "manager", parentRoleId := some 2, tenantId := 5 }

/-- C4 scenario: the middle ancestor. -/
def dirRole : SRole := { id := 2, name := "director", parentRoleId := some 3, tenantId := 5 }

/-- C4 scenario: the top ancestor holding the only grant. -/
def vpRole : SRole := { id := 3, name := "vp", parentRoleId := none, tenantId := 5 }

/-- C4 scenario grant: only vp holds inventory:view, in tenant 5. -/
def c4grant : SRolePerm :=
  { roleId := 3, tenantId := 5,
    permission := { id := 11, name := "inventory:view", tenantId := 5 } }

/-- C4 scenario assignment: the principal holds only manager in tenant 5. -/
def c4ur : SUserRole := { userId := 1, roleId := 1, orgUnitId := none, tenantId := 5 }

/-- C4 scenario database. -/
def c4db : SDb :=
  { roles := [mgrRole, dirRole, vpRole], userRoles := [c4ur], rolePerms := [c4grant],
    userRolesFail := false, roleFail := false, rolePermsFail := false }

/-- C4 scenario request. -/
def c4req : SReq :=
  { user := some { id := 1, tenantId := some 5, orgUnitId := none },
    tenantId := none, orgUnitId := none, resource := none,
    method := "GET", baseUrl := "/api/inventory", path := "/list" }

/-- C4 scenario requirement. -/
def c4opts : SOptions :=
  { roles := [], permissions := ["inventory:view"], resourcePermissions := [],
    actionPermissions := [], denyStatus := 403 }

/-- C4: evaluation of the code at the claim's own scenario. The rows chain
manager → director → vp through parentRoleId and vp alone holds the
inventory:view grant, yet the computed closure is just the manager role —
the walk reads role.parentId, which no row has, so it never ascends — and
the middleware denies with 403 where the claim (and the code's own
"Traverse up role hierarchy for inheritance" comment) requires Allow. -/
theorem c4_parent_walk_never_ascends :
    c4db.roles.map SRole.parentRoleId = [some 2, some 3, none] ∧
    c4grant.roleId = vpRole.id ∧
    closureOfAssignments c4db.roles c4db.roleFail 9
        (salesAssignments c4db.userRoles 1 5 none) [] = Except.ok [mgrRole] ∧
    srbac c4opts c4db c4req 9 = SOutcome.deny 403 ∧
    SOutcome.deny 403 ≠ SOutcome.allow := by
  refine ⟨rfl, rfl, rfl, by decide, by decide⟩

/-- C5: a persistence failure thrown during closure computation (the
UserRole fetch) or during permission aggregation (the RolePermission fetch,
reached when the closure succeeded and no owner/admin shortcut fired)
reaches the catch block and produces the 500 outcome, which is distinct
from Allow and from every Deny status. -/
theorem c5_db_failure_is_server_error (opts : SOptions) (db : SDb) (req : SReq)
    (fuel : Nat) (user : SUser) (T : Nat) (rs : List SRole)
    (hu : req.user = some user)
    (ht : jsOr req.tenantId user.tenantId = some T)
    (hfail : db.userRolesFail = true ∨
      (closureOfAssignments db.roles db.roleFail fuel
          (salesAssignments db.userRoles user.id T (jsOr req.orgUnitId user.orgUnitId))
          [] = Except.ok rs ∧
        hasElevatedRole rs = false ∧ db.rolePermsFail = true)) :
    srbac opts db req fuel = SOutcome.serverError ∧
    SOutcome.serverError ≠ SOutcome.allow ∧
    ∀ s, SOutcome.serverError ≠ SOutcome.deny s := by
  refine ⟨?_, by decide, fun s h => SOutcome.noConfusion h⟩
  cases hf : db.userRolesFail with
  | true => simp [srbac, srbacE, hu, ht, hf]
  | false =>
    rcases hfail with hfail | ⟨hc, hel, hrp⟩
    · rw [hf] at hfail
      exact absurd hfail (by decide)
    · simp [srbac, srbacE, hu, ht, hf, hc, hel, hrp]

/-- C5 witness fixture: the RolePermission query throws while everything
before it succeeds and the closure holds only a cashier role. -/
def c5db : SDb :=
  { roles := [{ id := 1, name := "cashier", parentRoleId := none, tenantId := 1 }]
    userRoles := [{ userId := 1, roleId := 1, orgUnitId := none, tenantId := 1 }]
    rolePerms := []
    userRolesFail := false
    roleFail := false
    rolePermsFail := true }

/-- C5 witness user. -/
def c5user : SUser := { id := 1, tenantId := some 1, orgUnitId := none }

/-- C5 witness request. -/
def c5req : SReq :=
  { user := some c5user, tenantId := none, orgUnitId := none, resource := none,
    method := "GET", baseUrl := "/api/inventory", path := "/list" }

/-- C5 witness options. -/
def c5opts : SOptions :=
  { roles := [], permissions := ["inventory:view"], resourcePermissions := [],
    actionPermissions := [], denyStatus := 403 }

theorem c5_db_failure_is_server_error_witness :
    srbac c5opts c5db c5req 2 = SOutcome.serverError ∧
    SOutcome.serverError ≠ SOutcome.allow := by
  have h := c5_db_failure_is_server_error c5opts c5db c5req 2 c5user 1
    [{ id := 1, name := "cashier", parentRoleId := none, tenantId := 1 }]
    rfl rfl (Or.inr ⟨rfl, by decide, rfl⟩)
  exact ⟨h.1, h.2.1⟩

theorem specSourceCustom_ne_empty (opts : TOptions) (req : TReq) (s : String)
    (h : specSourceCustom opts req = some s) : s ≠ "" := by
  unfold specSourceCustom at h
  cases hr : opts.tenantResolver with
  | none => simp only [hr] at h; exact absurd h (by simp)
  | some f =>
    simp only [hr] at h
    cases hf : f req with
    | error e => simp only [hf] at h; exact absurd h (by simp)
    | ok v =>
      simp only [hf] at h
      by_cases htv : jsTruthy v = true
      · rw [if_pos htv] at h
        subst h
        simp only [jsTruthy, Bool.not_eq_false', beq_iff_eq] at htv
        intro hEq
        rw [hEq] at htv
        simp at htv
      · rw [if_neg htv] at h
        exact absurd h (by simp)

theorem specSourceClaim_ne_empty (req : TReq) (s : String)
    (h : specSourceClaim req = some s) : s ≠ "" := by
  unfold specSourceClaim at h
  cases hu : req.user with
  | none => simp only [hu] at h; exact absurd h (by simp)
  | some u =>
    simp only [hu] at h
    by_cases htv : jsTruthy u.tenantId = true
    · rw [if_pos htv] at h
      rw [h] at htv
      simp only [jsTruthy, Bool.not_eq_false', beq_iff_eq] at htv
      intro hEq
      rw [hEq] at htv
      simp at htv
    · rw [if_neg htv] at h
      exact absurd h (by simp)

theorem specSourceHeader_ne_empty (req : TReq) (s : String)
    (h : specSourceHeader req = some s) : s ≠ "" := by
  unfold specSourceHeader at h
  cases hx : req.xTenantId with
  | none => simp only [hx] at h; exact absurd h (by simp)
  | some hv =>
    simp only [hx] at h
    by_cases hb : (jsTrim hv == "") = true
    · rw [if_pos hb] at h
      exact absurd h (by simp)
    · rw [if_neg hb] at h
      have hs : jsTrim hv = s := by simpa using h
      intro hEq
      rw [hEq] at hs
      exact hb (by simp [hs])

theorem specSourceHost_ne_empty (req : TReq) (s : String)
    (hhost : ∀ h, req.hostname = some h → 2 < (jsSplitDot h).length →
      jsTrim (jsHead (jsSplitDot h)) = jsHead (jsSplitDot h) ∧
        jsHead (jsSplitDot h) ≠ "")
    (h : specSourceHost req = some s) : s ≠ "" := by
  unfold specSourceHost at h
  cases hh : req.hostname with
  | none => simp only [hh] at h; exact absurd h (by simp)
  | some host =>
    simp only [hh] at h
    by_cases hl : 2 < (jsSplitDot host).length
    · rw [if_pos hl] at h
      have hs : jsHead (jsSplitDot host) = s := by simpa using h
      rw [← hs]
      exact (hhost host hh hl).2
    · rw [if_neg hl] at h
      exact absurd h (by simp)

theorem specResolutionOrder_ne_empty (opts : TOptions) (req : TReq)
    (hw : WfTenantReq opts req) (t : String)
    (h : specResolutionOrder opts req = some t) : t ≠ "" := by
  unfold specResolutionOrder jsOr at h
  cases hc : specSourceCustom opts req with
  | some s =>
    rw [hc] at h
    have hts : s = t := by simpa using h
    exact hts ▸ specSourceCustom_ne_empty opts req s hc
  | none =>
    rw [hc] at h
    cases hcl : specSourceClaim req with
    | some s =>
      rw [hcl] at h
      have hts : s = t := by simpa using h
      exact hts ▸ specSourceClaim_ne_empty req s hcl
    | none =>
      rw [hcl] at h
      cases hhd : specSourceHeader req with
      | some s =>
        rw [hhd] at h
        have hts : s = t := by simpa using h
        exact hts ▸ specSourceHeader_ne_empty req s hhd
      | none =>
        rw [hhd] at h
        exact specSourceHost_ne_empty req t hw.hostOk h

/-- C6: resolution order and fail-closed behavior of the tenant middleware.
On any well-formed request with no tenant allow-list configured: when the
spec's first-match-wins order over sources (a)–(d) produces a tenant id, the
middleware attaches exactly that id; when no source yields one, the
middleware fails with the 400 tenant-missing outcome; and every attached
tenant id is one the spec's order produced — the middleware never invents or
defaults one. -/
theorem c6_resolution_order_fail_closed (opts : TOptions) (req : TReq)
    (hw : WfTenantReq opts req) (hallow : opts.allowedTenants = none) :
    (∀ t, specResolutionOrder opts req = some t →
      ∃ ctx, (tenantMiddleware opts req).1 = TOutcome.next ctx ∧ ctx.tenantId = t) ∧
    (specResolutionOrder opts req = none →
      (tenantMiddleware opts req).1 = TOutcome.missing ∧
        tStatus TOutcome.missing = some 400) ∧
    (∀ ctx, (tenantMiddleware opts req).1 = TOutcome.next ctx →
      specResolutionOrder opts req = some ctx.tenantId) := by
  have hrw := rawResolve_eq_spec opts req hw
  cases hspec : specResolutionOrder opts req with
  | none =>
    rw [hspec] at hrw
    refine ⟨?_, ?_, ?_⟩
    · intro t ht
      exact absurd ht (by simp)
    · intro _
      exact ⟨by simp [tenantMiddleware, hrw], rfl⟩
    · intro ctx hctx
      simp [tenantMiddleware, hrw] at hctx
  | some t0 =>
    rw [hspec] at hrw
    have htne : t0 ≠ "" := specResolutionOrder_ne_empty opts req hw t0 hspec
    have htne2 : (t0 == "") = false := by simp [htne]
    have hmw : ∃ b, (tenantMiddleware opts req).1 = TOutcome.next ⟨t0, b⟩ := by
      by_cases hch : (isSentinel t0 && userIsOwner req) = true
      · exact ⟨true, by simp [tenantMiddleware, hrw, hch]⟩
      · have hch2 : (isSentinel t0 && userIsOwner req) = false := by
          cases hq : (isSentinel t0 && userIsOwner req)
          · rfl
          · exact absurd hq hch
        exact ⟨false, by simp [tenantMiddleware, hrw, hch2, htne2, hallow]⟩
    obtain ⟨b, h1⟩ := hmw
    refine ⟨?_, ?_, ?_⟩
    · intro t ht
      have htt : t0 = t := by simpa using ht
      subst htt
      exact ⟨⟨t0, b⟩, h1, rfl⟩
    · intro hNone
      exact absurd hNone (by simp)
    · intro ctx hctx
      rw [h1] at hctx
      injection hctx with h2
      subst h2
      rfl

/-- C6 witness options. -/
def c6opts : TOptions := { allowedTenants := none, tenantResolver := none }

/-- C6 witness request: the only source producing a tenant is the JWT claim. -/
def c6req : TReq :=
  { user := some { tenantId := some ("acme"), role := "cashier" },
    xTenantId := none, hostname := none }

theorem c6_resolution_order_fail_closed_witness :
    ∃ ctx, (tenantMiddleware c6opts c6req).1 = TOutcome.next ctx ∧
      ctx.tenantId = "acme" := by
  have hw : WfTenantReq c6opts c6req := by
    constructor
    · intro f hf
      exact absurd hf (by simp [c6opts])
    · intro u hu s hs
      have hu2 : u = { tenantId := some ("acme"), role := "cashier" } := by
        simpa [c6req] using hu.symm
      subst hu2
      have hs2 : s = "acme" := by simpa using hs.symm
      subst hs2
      exact ⟨by decide, by decide⟩
    · intro h hh
      exact absurd hh (by simp [c6req])
    · intro s hs
      exact absurd hs (by simp [c6req])
  exact (c6_resolution_order_fail_closed c6opts c6req hw rfl).1 ("acme") (by decide)

/-- C7: a request whose x-tenant-id header trims to a reserved name, with no
earlier source supplying a tenant, is rejected with the invalid-header 400
outcome: no tenant context is attached, and a protected route built from the
middleware pair never consults the role/permission store — its outcome is
the same for every database. -/
theorem c7_reserved_header_rejected (opts : TOptions) (req : TReq) (s : String)
    (hres : opts.tenantResolver = none)
    (huser : ∀ u, req.user = some u → jsTruthy u.tenantId = false)
    (hx : req.xTenantId = some s)
    (hword : reservedNames.any (fun n => n == jsTrim s) = true) :
    (tenantMiddleware opts req).1 = TOutcome.invalidHeader ∧
    tStatus TOutcome.invalidHeader = some 400 ∧
    (∀ ctx, (tenantMiddleware opts req).1 ≠ TOutcome.next ctx) ∧
    (∀ perm db1 db2 mk, tenantThenRbac opts req perm db1 mk =
      tenantThenRbac opts req perm db2 mk) ∧
    (∀ perm db mk, tenantThenRbac opts req perm db mk =
      PipeOutcome.rejected TOutcome.invalidHeader) := by
  have htrim_ne : (jsTrim s == "") = false := by
    rcases List.any_eq_true.mp hword with ⟨n, hn, hbeq⟩
    have hEq : n = jsTrim s := by simpa using hbeq
    rw [hEq] at hn
    simp only [reservedNames, List.mem_cons, List.not_mem_nil, or_false] at hn
    rcases hn with h | h | h <;> rw [h] <;> rfl
  have hmain : rawResolve opts req = RawResolve.invalidHeader := by
    cases hu : req.user with
    | none =>
      simp [rawResolve, hres, rawResolveFrom, jsTruthy, hu, hx, htrim_ne, hword]
    | some u =>
      have hfu := huser u hu
      simp only [rawResolve, hres, rawResolveFrom, hu, hfu, Bool.false_eq_true,
        if_false, hx]
      simp [jsTruthy, htrim_ne, hword]
  refine ⟨by simp [tenantMiddleware, hmain], rfl, ?_, ?_, ?_⟩
  · intro ctx
    simp [tenantMiddleware, hmain]
  · intro perm db1 db2 mk
    simp [tenantThenRbac, tenantMiddleware, hmain]
  · intro perm db mk
    simp [tenantThenRbac, tenantMiddleware, hmain]

/-- C7 witness options. -/
def c7opts : TOptions := { allowedTenants := none, tenantResolver := none }

/-- C7 witness request: the header is the reserved name, nothing earlier
yields a tenant. -/
def c7req : TReq :=
  { user := none, xTenantId := some ("__proto__"), hostname := some ("shop.example.com") }

theorem c7_reserved_header_rejected_witness :
    (tenantMiddleware c7opts c7req).1 = TOutcome.invalidHeader ∧
    tStatus TOutcome.invalidHeader = some 400 := by
  have h := c7_reserved_header_rejected c7opts c7req protoPat rfl
    (by intro u hu; simp [c7req] at hu)
    (by decide) (by decide)
  exact ⟨h.1, h.2.1⟩

/-- C8 fixture: a request to an audited route whose body carries a password
field. -/
def c8req : AuditReq :=
  { userId := some 4, topFields := [],
    body := [("password", "hunter2"), ("name", "alice")],
    params := [("id", "42")], query := [],
    ip := "10.0.0.5", userAgent := "jest" }

/-- C8 action label. -/
def c8action : String := "user:create"

/-- C8 resource label. -/
def c8resource : String := "User"

/-- C8: the audit middleware persists the full request body verbatim inside
the details column, so any secret in the body — here a password — is
recorded in the audit log, contradicting the no-secrets/minimal-identifiers
requirement. -/
theorem c8_audit_records_secret :
    (auditLogRecord c8action c8resource none c8req).detailsBody = c8req.body ∧
    ("password", "hunter2") ∈ (auditLogRecord c8action c8resource none c8req).detailsBody := by
  exact ⟨rfl, by decide⟩

/-- C9: the options normalization of rbac.middleware.js silently augments
the accepted role list with the role name owner, so for every options bundle
a principal whose role lower-cases to owner passes the role check and is
allowed, regardless of any permissions; the same augmented list is built by
the hierarchical middleware's normalization. -/
theorem c9_owner_always_accepted (opts : StRbacOptions) (user : StUser) (r : String)
    (hrole : user.role = some r) (hlower : jsToLower r = "owner") :
    staticRbac opts (some user) = StOutcome.allow ∧
    "owner" ∈ staticNormalizedRoles opts.roles ∧
    "owner" ∈ salesNormalizedRoles opts.roles := by
  have hmem : "owner" ∈ staticNormalizedRoles opts.roles :=
    (mem_jsDedup _ _).mpr (List.mem_append_right _ (by simp))
  have hmem2 : "owner" ∈ salesNormalizedRoles opts.roles :=
    (mem_jsDedup _ _).mpr (List.mem_append_right _ (by simp))
  refine ⟨?_, hmem, hmem2⟩
  have hne : staticNormalizedRoles opts.roles ≠ [] := List.ne_nil_of_mem hmem
  have hisEmpty : (staticNormalizedRoles opts.roles).isEmpty = false := by
    cases hq : (staticNormalizedRoles opts.roles).isEmpty
    · rfl
    · exact absurd (List.isEmpty_iff.mp hq) hne
  have hany : (staticNormalizedRoles opts.roles).any (fun x => x == "owner") = true :=
    List.any_eq_true.mpr ⟨"owner", hmem, by simp⟩
  have hpr : strIncludes ("owner") protoPat = false := by decide
  have hct : strIncludes ("owner") ctorPat = false := by decide
  simp [staticRbac, hrole, hlower, hpr, hct, hisEmpty, hany]

/-- C9 witness role string (upper case, to witness the case-insensitive
lowering). -/
def c9role : String := "OWNER"

/-- C9 witness user with no permissions at all. -/
def c9user : StUser := { id := some 1, role := some c9role, permissions := [] }

/-- C9 witness options listing no roles that match the user. -/
def c9opts : StRbacOptions :=
  { roles := ["cashier"], permissions := ["inventory:view"], denyStatus := 403 }

theorem c9_owner_always_accepted_witness :
    staticRbac c9opts (some c9user) = StOutcome.allow ∧
    "owner" ∈ staticNormalizedRoles c9opts.roles := by
  have h := c9_owner_always_accepted c9opts c9user c9role rfl (by decide)
  exact ⟨h.1, h.2.1⟩

/-- C10: the owner cheat code. (1) When the resolved, trimmed tenant id is a
sentinel and the user's role is owner, the middleware bypasses every later
check — including any configured allow-list — attaches a context with
isOwner set, and logs the distinct OWNER_CHEATCODE_USED event. (2) For any
non-sentinel resolved id the attached context never has isOwner set. (3)
Downstream, a tenant context with isOwner set makes the permission
middleware allow every action. (4) The sentinel values are exactly
0000000000 and 1. -/
theorem c10_owner_sentinels :
    (∀ (opts : TOptions) (req : TReq) (tid : String) (u : TUser),
      rawResolve opts req = RawResolve.val (some tid) →
      isSentinel tid = true → req.user = some u → u.role = "owner" →
      (tenantMiddleware opts req).1 = TOutcome.next ⟨tid, true⟩ ∧
      TEvent.ownerCheat ∈ (tenantMiddleware opts req).2) ∧
    (∀ (opts : TOptions) (req : TReq) (tid : String) (ctx : TenantCtx),
      rawResolve opts req = RawResolve.val (some tid) →
      isSentinel tid = false →
      (tenantMiddleware opts req).1 = TOutcome.next ctx → ctx.isOwner = false) ∧
    (∀ (perm : String) (db : PmDb) (preq : PmReq) (u : PmUser),
      preq.user = some u → preq.tenantContextIsOwner = true →
      pmRbac perm db preq = PmOutcome.allow) ∧
    (∀ t : String, isSentinel t = true ↔ (t = "0000000000" ∨ t = "1")) := by
  refine ⟨?_, ?_, ?_, ?_⟩
  · intro opts req tid u hraw hsent hu hrole
    have hio : userIsOwner req = true := by simp [userIsOwner, hu, hrole]
    exact ⟨by simp [tenantMiddleware, hraw, hsent, hio],
      by simp [tenantMiddleware, hraw, hsent, hio]⟩
  · intro opts req tid ctx hraw hsent hctx
    by_cases hz : (tid == "") = true
    · simp [tenantMiddleware, hraw, hsent, hz] at hctx
    · have hz2 : (tid == "") = false := by
        cases hq : (tid == "")
        · rfl
        · exact absurd hq hz
      cases hallow2 : opts.allowedTenants with
      | none =>
        have hfst : (tenantMiddleware opts req).1 = TOutcome.next ⟨tid, false⟩ := by
          simp [tenantMiddleware, hraw, hsent, hz2, hallow2]
        rw [hfst] at hctx
        injection hctx with h2
        subst h2
        rfl
      | some allowed =>
        by_cases hin : (allowed.any (fun a => a == tid)) = true
        · have hfst : (tenantMiddleware opts req).1 = TOutcome.next ⟨tid, false⟩ := by
            simp [tenantMiddleware, hraw, hsent, hz2, hallow2, hin]
          rw [hfst] at hctx
          injection hctx with h2
          subst h2
          rfl
        · have hin2 : (allowed.any (fun a => a == tid)) = false := by
            cases hq : (allowed.any (fun a => a == tid))
            · rfl
            · exact absurd hq hin
          simp [tenantMiddleware, hraw, hsent, hz2, hallow2, hin2] at hctx
  · intro perm db preq u hu hctx
    simp [pmRbac, hu, hctx]
  · intro t
    simp [isSentinel]

/-- C10 witness sentinel. -/
def c10tid : String := "1"

/-- C10 witness options: a restrictive allow-list that would reject every
tenant, to witness that the cheat code skips it. -/
def c10opts : TOptions := { allowedTenants := some [], tenantResolver := none }

/-- C10 witness user. -/
def c10user : TUser := { tenantId := some ("1"), role := "owner" }

/-- C10 witness request. -/
def c10req : TReq := { user := some c10user, xTenantId := none, hostname := none }

theorem c10_owner_sentinels_witness :
    (tenantMiddleware c10opts c10req).1 = TOutcome.next ⟨c10tid, true⟩ ∧
    TEvent.ownerCheat ∈ (tenantMiddleware c10opts c10req).2 :=
  c10_owner_sentinels.1 c10opts c10req c10tid c10user (by decide) (by decide) rfl rfl
